import Mathlib

/-!
Verification of the request-dispatch core of the scraper repository:
the rate limiter (`scraper/core/rate_limiter.py`), the proxy manager
(`scraper/core/proxy_manager.py`) and the retrying dispatcher
(`scraper/core/base_scraper.py`).

Conventions of the shallow embedding:
* Python `float` values (timestamps in seconds, backoff multipliers,
  delays) are modelled as rationals `ℚ`; Python `datetime` values are
  rationals counting seconds, with `datetime.min` the concrete constant
  `-62135596800` (seconds from the Unix epoch back to year 1).
* Python `defaultdict` fields are total functions `String → _` whose
  initial value is the default; mutation is `Function.update`.
* The per-key request history, a `deque(maxlen=1000)` appended on the
  right, is a `List ℚ` kept newest-first: an append is
  `(now :: h).take 1000`, which keeps exactly the 1000 most recent
  entries, as the deque does.
* Fallible dictionary indexing (`self.rate_limits[platform]`) returns
  `Except RLKeyError _`.
-/

namespace Scraper

/-- `RateLimit` dataclass of `rate_limiter.py` (lines 18-26). -/
structure RateLimit where
  requests_per_minute : ℕ
  requests_per_hour : ℕ
  requests_per_day : ℕ
  burst_limit : ℕ
  cooldown_period : ℚ
  jitter_range : ℚ := 1/10
deriving DecidableEq, Repr

/-- `datetime.min` as seconds relative to the Unix epoch (0001-01-01T00:00). -/
def datetimeMin : ℚ := -62135596800

/-- Mutable state of `RateLimiter` (`__init__`, lines 34-92).
`rate_limits` is the platform-configuration dict as an association list
(`set_rate_limit` conses in front, so `List.lookup` sees the newest
binding first, which matches dict overwrite). -/
structure RLState where
  rate_limits : List (String × RateLimit)
  request_history : String → List ℚ
  last_request_time : String → ℚ
  burst_count : String → ℕ
  backoff_multiplier : String → ℚ
  enabled : Bool
  default_delay : ℚ
  max_backoff : ℚ

/-- The six platform configurations hard-coded in `RateLimiter.__init__`. -/
def builtinRateLimits : List (String × RateLimit) :=
  [ ("twitter",   ⟨15, 300, 1000, 5, 2, 1/10⟩),
    ("instagram", ⟨10, 200, 500, 3, 3, 1/10⟩),
    ("facebook",  ⟨20, 400, 1000, 8, 5/2, 1/10⟩),
    ("linkedin",  ⟨8, 150, 300, 2, 3, 1/10⟩),
    ("tiktok",    ⟨12, 250, 600, 4, 5/2, 1/10⟩),
    ("general",   ⟨30, 500, 2000, 10, 1, 1/10⟩) ]

/-- `RateLimiter.__init__`: fresh limiter state. -/
def initRL : RLState where
  rate_limits := builtinRateLimits
  request_history := fun _ => []
  last_request_time := fun _ => datetimeMin
  burst_count := fun _ => 0
  backoff_multiplier := fun _ => 1
  enabled := true
  default_delay := 1
  max_backoff := 60

/-- `self.rate_limits.get(platform, self.rate_limits["general"])`
(lines 108, 134, 269, 316).  The state always retains a `"general"`
entry; the last `getD` default is unreachable from the modelled API. -/
def getRL (s : RLState) (p : String) : RateLimit :=
  (s.rate_limits.lookup p).getD
    ((s.rate_limits.lookup "general").getD ⟨30, 500, 2000, 10, 1, 1/10⟩)

/-- Pointwise update of a `defaultdict`-backed field (non-dependent, so
that it evaluates definitionally, unlike `Function.update`). -/
def updF {β : Type} (f : String → β) (k : String) (v : β) : String → β :=
  fun x => if x = k then v else f x

/-- Python `str.lower()` on the ASCII range (all destination keys and
error-type strings in this code base are ASCII).  Defined by structural
recursion on the character list so that it evaluates definitionally. -/
def lowerChar (c : Char) : Char :=
  if 65 ≤ c.toNat ∧ c.toNat ≤ 90 then Char.ofNat (c.toNat + 32) else c

/-- Python `str.lower()` (see `lowerChar`). -/
def strLower (s : String) : String := ⟨s.data.map lowerChar⟩

/-- Error value for a Python `KeyError` on the rate-limit dict. -/
structure RLKeyError where
  key : String
deriving DecidableEq, Repr

/-- `RateLimiter._is_in_backoff` (lines 277-293).  Note the source indexes
`self.rate_limits[platform]` directly (line 291) with no default, so a
platform missing from the dict raises `KeyError` whenever its backoff
multiplier exceeds 1. -/
def isInBackoff (s : RLState) (p : String) (now : ℚ) : Except RLKeyError Bool :=
  if s.backoff_multiplier p ≤ 1 then .ok false
  else
    match s.rate_limits.lookup p with
    | none => .error ⟨p⟩
    | some rl =>
        .ok (decide (now - s.last_request_time p < rl.cooldown_period * s.backoff_multiplier p))

/-- `RateLimiter._check_rate_limits` (lines 186-228): the three trailing
window counts plus the burst counter, each compared against its ceiling. -/
def checkRateLimits (s : RLState) (p : String) (rl : RateLimit) (now : ℚ) : Bool :=
  let history := s.request_history p
  let requests_last_minute := history.countP (fun r => decide (now - 60 < r))
  let requests_last_hour := history.countP (fun r => decide (now - 3600 < r))
  let requests_last_day := history.countP (fun r => decide (now - 86400 < r))
  if rl.requests_per_minute ≤ requests_last_minute then false
  else if rl.requests_per_hour ≤ requests_last_hour then false
  else if rl.requests_per_day ≤ requests_last_day then false
  else if rl.burst_limit ≤ s.burst_count p then false
  else true

/-- `RateLimiter._record_request` (lines 261-270): append the timestamp to
the bounded history, refresh the last-request time and bump the burst
counter.  The `asyncio.create_task(_reset_burst_count ...)` scheduled here
is modelled as a separate `REvent.reset` trace event (it runs later on the
event loop). -/
def recordRequest (s : RLState) (p : String) (now : ℚ) : RLState :=
  { s with
    request_history := updF s.request_history p ((now :: s.request_history p).take 1000)
    last_request_time := updF s.last_request_time p now
    burst_count := updF s.burst_count p (s.burst_count p + 1) }

/-- `RateLimiter.acquire` (lines 94-121).  Returns the new state and the
boolean; a `KeyError` escaping `_is_in_backoff` is surfaced as `.error`
(the state is untouched in that case, since nothing was mutated yet). -/
def acquire (s : RLState) (platform : String) (now : ℚ) : Except RLKeyError (RLState × Bool) :=
  if s.enabled = false then .ok (s, true)
  else
    let p := strLower platform
    let rl := getRL s p
    match isInBackoff s p now with
    | .error e => .error e
    | .ok true => .ok (s, false)
    | .ok false =>
        if checkRateLimits s p rl now then .ok (recordRequest s p now, true)
        else .ok (s, false)

/-- State after `acquire` (identity when the call raised `KeyError`,
matching a caller that catches and moves on: no mutation had happened). -/
def acquireState (s : RLState) (platform : String) (now : ℚ) : RLState :=
  match acquire s platform now with
  | .ok (s', _) => s'
  | .error _ => s

/-- The boolean `acquire` returned, `none` when it raised. -/
def acquireResult (s : RLState) (platform : String) (now : ℚ) : Option Bool :=
  match acquire s platform now with
  | .ok (_, b) => some b
  | .error _ => none

/-- `True` iff this `acquire` call executed `_record_request`: the limiter
is enabled and the call returned `True` (a disabled limiter returns `True`
at line 105 without recording anything). -/
def acqRecorded (s : RLState) (platform : String) (now : ℚ) : Bool :=
  s.enabled && (match acquire s platform now with
                | .ok (_, b) => b
                | .error _ => false)

/-- The error types treated as rate-limit signals by
`mark_request_failed` (line 167). -/
def rateLimitErrorTypes : List String := ["rate_limit", "429", "too_many_requests"]

/-- The error types treated as connection problems by
`mark_request_failed` (line 179). -/
def connectionErrorTypes : List String := ["timeout", "connection_error"]

/-- `RateLimiter.mark_request_failed` (lines 157-184). -/
def markRequestFailed (s : RLState) (platform : String) (error_type : String) (now : ℚ) :
    RLState :=
  let p := strLower platform
  if rateLimitErrorTypes.contains error_type then
    { s with
      backoff_multiplier :=
        updF s.backoff_multiplier p (min s.max_backoff (s.backoff_multiplier p * 2))
      last_request_time := updF s.last_request_time p now }
  else if connectionErrorTypes.contains error_type then
    { s with
      backoff_multiplier :=
        updF s.backoff_multiplier p
          (min s.max_backoff (s.backoff_multiplier p * (3/2))) }
  else s

/-- `RateLimiter.mark_request_success` (lines 143-155): decay the backoff
multiplier by ×0.8, floored at 1, but only when it currently exceeds 1. -/
def markRequestSuccess (s : RLState) (platform : String) : RLState :=
  let p := strLower platform
  if 1 < s.backoff_multiplier p then
    { s with
      backoff_multiplier :=
        updF s.backoff_multiplier p (max 1 (s.backoff_multiplier p * (4/5))) }
  else s

/-- `RateLimiter._reset_burst_count` (lines 272-275), the body that runs
when the background task scheduled by `_record_request` fires:
`burst_count = max(0, burst_count - 1)` (truncated subtraction on `ℕ`). -/
def resetBurstCount (s : RLState) (p : String) : RLState :=
  { s with burst_count := updF s.burst_count p (s.burst_count p - 1) }

/-- `RateLimiter._calculate_delay` (lines 230-259), with the value drawn by
`random.uniform(-jitter_range, jitter_range)` made an explicit argument. -/
def calculateDelay (s : RLState) (p : String) (rl : RateLimit) (now j : ℚ) : ℚ :=
  let base_delay := rl.cooldown_period
  let delay := base_delay * s.backoff_multiplier p
  let delay := max 0 (delay * (1 + j))
  let time_since_last := now - s.last_request_time p
  if time_since_last < delay then delay - time_since_last else 0

/-- `RateLimiter.wait_if_needed` (lines 123-141): the delay it sleeps for
(0 when the limiter is disabled or no delay is due). -/
def waitIfNeededDelay (s : RLState) (platform : String) (now j : ℚ) : ℚ :=
  if s.enabled = false then 0
  else
    let p := strLower platform
    calculateDelay s p (getRL s p) now j

/-- `RateLimiter.set_rate_limit` (lines 295-304): dict overwrite. -/
def setRateLimit (s : RLState) (platform : String) (rl : RateLimit) : RLState :=
  { s with rate_limits := (strLower platform, rl) :: s.rate_limits }

end Scraper

namespace Scraper

/-- Trace events against one `RateLimiter` instance.  `acq` and `failed`
carry the wall-clock instant (`datetime.now()`) at which they run;
`reset` is the deferred `_reset_burst_count` task firing (it was created
by an earlier recorded request with the already-lowercased platform);
`success` reads no clock. -/
inductive REvent where
  | acq (platform : String) (now : ℚ)
  | success (platform : String)
  | failed (platform : String) (error_type : String) (now : ℚ)
  | reset (platform : String)
deriving DecidableEq, Repr

/-- The wall-clock instant an event reads, if any. -/
def evTime : REvent → Option ℚ
  | .acq _ now => some now
  | .failed _ _ now => some now
  | _ => none

/-- One event applied to the limiter state. -/
def stepState (s : RLState) (e : REvent) : RLState :=
  match e with
  | .acq p now => acquireState s p now
  | .success p => markRequestSuccess s p
  | .failed p et now => markRequestFailed s p et now
  | .reset p => resetBurstCount s p

/-- A whole trace applied to the limiter state. -/
def run (s : RLState) (evs : List REvent) : RLState :=
  evs.foldl stepState s

/-- Timestamps of the requests recorded for (lower-case) key `k` along a
trace: the `acq` events whose `acquire` call executed `_record_request`. -/
def recordedOf (s : RLState) (k : String) : List REvent → List ℚ
  | [] => []
  | e :: evs =>
      (match e with
       | .acq p now => if strLower p = k ∧ acqRecorded s p now then [now] else []
       | _ => []) ++ recordedOf (stepState s e) k evs

/-- Number of recorded timestamps inside the trailing window `(t - len, t]`. -/
def windowCount (times : List ℚ) (t len : ℚ) : ℕ :=
  times.countP (fun u => decide (t - len < u) && decide (u ≤ t))

end Scraper

namespace Scraper

/-! ### Claim C7: the burst scenario -/

/-- The custom configuration of the spec scenario: `requests_per_minute=2,
burst_limit=2, cooldown_period=1s` (hour/day ceilings are not named by the
scenario; any values large enough not to interfere work, we pick 100/1000,
and the default jitter). -/
def c7Config : RateLimit := ⟨2, 100, 1000, 2, 1, 1/10⟩

/-- A fresh limiter with the scenario configuration installed for key
`"site"` via `set_rate_limit`. -/
def c7State : RLState := setRateLimit initRL "site" c7Config

/-- **C7** (confirmed): with `requests_per_minute=2, burst_limit=2,
cooldown_period=1s` and a fresh state, three back-to-back `acquire` calls
on the key return `true`, `true`, `false` (the calls are 0.1 s apart, so
no scheduled burst reset has fired in between). -/
theorem c7_burst_scenario :
    acquireResult c7State "site" 0 = some true ∧
    acquireResult (acquireState c7State "site" 0) "site" (1/10) = some true ∧
    acquireResult (acquireState (acquireState c7State "site" 0) "site" (1/10)) "site" (1/5) =
      some false := by
  refine ⟨?_, ?_, ?_⟩ <;> with_unfolding_all rfl

/-! ### Claim C3: `acquire` on an unknown key can raise `KeyError` -/

/-- **C3** (code bug): the spec says `RateLimiter` never throws for normal
operation, and `acquire` consistently falls back to the `"general"`
configuration for unknown keys — but `_is_in_backoff` (rate_limiter.py
line 291) indexes `self.rate_limits[platform]` directly.  Failing input:
one `mark_request_failed("apikey", "rate_limit")` (any key missing from
the configuration dict) followed by `acquire("apikey")`: the multiplier is
now 2 > 1, so `_is_in_backoff` reaches the dict access and raises
`KeyError` instead of returning `False`. -/
theorem c3_unknown_key_raises :
    acquire (markRequestFailed initRL "apikey" "rate_limit" 0) "apikey" 1 =
      .error ⟨"apikey"⟩ ∧
    initRL.rate_limits.lookup "apikey" = none := by
  constructor <;> with_unfolding_all rfl

/-! ### Claim C6: `mark_request_success` is not idempotent -/

/-- `mark_request_success` never touches any field other than the backoff
multiplier. -/
theorem markRequestSuccess_fields (s : RLState) (key : String) :
    (markRequestSuccess s key).rate_limits = s.rate_limits ∧
    (markRequestSuccess s key).request_history = s.request_history ∧
    (markRequestSuccess s key).last_request_time = s.last_request_time ∧
    (markRequestSuccess s key).burst_count = s.burst_count ∧
    (markRequestSuccess s key).enabled = s.enabled := by
  by_cases h : 1 < s.backoff_multiplier (strLower key) <;>
    simp [markRequestSuccess, h]

/-- The multiplier that `mark_request_success` leaves at a key whose
current multiplier exceeds 1. -/
theorem markRequestSuccess_mult (s : RLState) (key : String)
    (h : 1 < s.backoff_multiplier (strLower key)) :
    (markRequestSuccess s key).backoff_multiplier (strLower key) =
      max 1 (s.backoff_multiplier (strLower key) * (4/5)) := by
  unfold markRequestSuccess
  rw [if_pos h]
  simp [updF]

/-- `mark_request_success` is the identity when the multiplier is ≤ 1. -/
theorem markRequestSuccess_id (s : RLState) (key : String)
    (h : s.backoff_multiplier (strLower key) ≤ 1) :
    markRequestSuccess s key = s := by
  unfold markRequestSuccess
  rw [if_neg (not_lt.mpr h)]

/-- **C6 counterexample**: `mark_request_success` is *not* idempotent.
Concrete input: after one rate-limit failure the multiplier of `"x"` is 2;
one success leaves 1.6, a second immediate success leaves 1.28 ≠ 1.6. -/
theorem c6_idempotent_counterexample :
    (markRequestSuccess (markRequestSuccess
        (markRequestFailed initRL "x" "rate_limit" 0) "x") "x").backoff_multiplier "x" ≠
      (markRequestSuccess
        (markRequestFailed initRL "x" "rate_limit" 0) "x").backoff_multiplier "x" ∧
    (markRequestSuccess (markRequestSuccess
        (markRequestFailed initRL "x" "rate_limit" 0) "x") "x").backoff_multiplier "x" = 32/25 ∧
    (markRequestSuccess
        (markRequestFailed initRL "x" "rate_limit" 0) "x").backoff_multiplier "x" = 8/5 := by
  refine ⟨?_, ?_, ?_⟩ <;> with_unfolding_all decide

/-- **C6** (amended): each `mark_request_success` call decays the backoff
multiplier by the fixed factor 0.8 floored at 1.0 and changes nothing
else; it is *not* idempotent in general — a second immediate call agrees
with a single call exactly when the starting multiplier is at most 1.25
(i.e. when one call already reaches the floor). -/
theorem c6_success_decay (s : RLState) (key : String) :
    ((markRequestSuccess (markRequestSuccess s key) key).rate_limits =
        (markRequestSuccess s key).rate_limits ∧
      (markRequestSuccess (markRequestSuccess s key) key).request_history =
        (markRequestSuccess s key).request_history ∧
      (markRequestSuccess (markRequestSuccess s key) key).last_request_time =
        (markRequestSuccess s key).last_request_time ∧
      (markRequestSuccess (markRequestSuccess s key) key).burst_count =
        (markRequestSuccess s key).burst_count) ∧
    (1 < s.backoff_multiplier (strLower key) →
      (markRequestSuccess s key).backoff_multiplier (strLower key) =
        max 1 (s.backoff_multiplier (strLower key) * (4/5))) ∧
    ((markRequestSuccess (markRequestSuccess s key) key).backoff_multiplier (strLower key) =
        (markRequestSuccess s key).backoff_multiplier (strLower key) ↔
      s.backoff_multiplier (strLower key) ≤ 5/4) := by
  obtain ⟨f1, f2, f3, f4, -⟩ := markRequestSuccess_fields (markRequestSuccess s key) key
  refine ⟨⟨f1, f2, f3, f4⟩, fun h => markRequestSuccess_mult s key h, ?_⟩
  set m := s.backoff_multiplier (strLower key) with hm
  rcases le_or_lt m 1 with h1 | h1
  · rw [markRequestSuccess_id s key h1, markRequestSuccess_id s key h1]
    exact iff_of_true rfl (le_trans h1 (by norm_num))
  · have hs1 := markRequestSuccess_mult s key h1
    rcases le_or_lt m (5/4) with h54 | h54
    · have hfloor : m * (4/5) ≤ 1 := by linarith
      have : (markRequestSuccess s key).backoff_multiplier (strLower key) = 1 := by
        rw [hs1, max_eq_left hfloor]
      rw [markRequestSuccess_id (markRequestSuccess s key) key (le_of_eq this)]
      exact iff_of_true rfl h54
    · have hpos : (0:ℚ) < m := lt_trans one_pos h1
      have hfloor : 1 < m * (4/5) := by linarith
      have hs1' : (markRequestSuccess s key).backoff_multiplier (strLower key) = m * (4/5) := by
        rw [hs1, max_eq_right (le_of_lt hfloor)]
      have hs2 := markRequestSuccess_mult (markRequestSuccess s key) key
        (by rw [hs1']; exact hfloor)
      rw [hs2, hs1']
      have hlt : max 1 (m * (4/5) * (4/5)) < m * (4/5) := by
        apply max_lt hfloor
        nlinarith
      exact iff_of_false (ne_of_lt hlt) (not_le.mpr h54)

end Scraper

namespace Scraper

/-! ### Claim C4: the wait computed by `wait_if_needed` -/

/-- **C4** (confirmed): with the limiter enabled, the wait computed by
`wait_if_needed` via `_calculate_delay` for jitter draw `j` (the value of
`random.uniform(-jitter_range, jitter_range)`, so `|j| ≤ jitter_range`)
equals `max 0 (cooldown_period × backoff_multiplier × (1 + j))` reduced by
the time elapsed since the last request on the key, floored at zero — in
particular it is never negative. -/
theorem c4_delay_formula (s : RLState) (platform : String) (now j : ℚ)
    (hen : s.enabled = true)
    (_hj : |j| ≤ (getRL s (strLower platform)).jitter_range) :
    waitIfNeededDelay s platform now j =
      max 0 (max 0 ((getRL s (strLower platform)).cooldown_period *
          s.backoff_multiplier (strLower platform) * (1 + j)) -
        (now - s.last_request_time (strLower platform))) ∧
    0 ≤ waitIfNeededDelay s platform now j := by
  unfold waitIfNeededDelay calculateDelay
  rw [hen]
  simp only [Bool.true_eq_false, if_false]
  set d := max 0 ((getRL s (strLower platform)).cooldown_period *
    s.backoff_multiplier (strLower platform) * (1 + j)) with hd
  set tsl := now - s.last_request_time (strLower platform) with htsl
  by_cases h : tsl < d
  · rw [if_pos h, max_eq_right (by linarith : (0:ℚ) ≤ d - tsl)]
    exact ⟨rfl, by linarith⟩
  · rw [if_neg h, max_eq_left (by linarith [not_lt.mp h] : d - tsl ≤ 0)]
    exact ⟨rfl, le_refl 0⟩

/-- Witness for C4 at a concrete input: fresh limiter, key `"general"`,
`now = 5`, jitter draw `j = 1/20`. -/
theorem c4_delay_formula_witness :
    waitIfNeededDelay initRL "general" 5 (1/20) =
      max 0 (max 0 ((getRL initRL (strLower "general")).cooldown_period *
          initRL.backoff_multiplier (strLower "general") * (1 + 1/20)) -
        (5 - initRL.last_request_time (strLower "general"))) ∧
    0 ≤ waitIfNeededDelay initRL "general" 5 (1/20) :=
  c4_delay_formula initRL "general" 5 (1/20) rfl (by with_unfolding_all decide)

/-! ### Claim C5: backoff growth under consecutive rate-limit failures -/

/-- One `mark_request_failed` step, for iteration. -/
def failStep (key etype : String) (now : ℚ) (s : RLState) : RLState :=
  markRequestFailed s key etype now

/-- `mark_request_failed` never changes `max_backoff`. -/
theorem markRequestFailed_max_backoff (s : RLState) (key etype : String) (now : ℚ) :
    (markRequestFailed s key etype now).max_backoff = s.max_backoff := by
  unfold markRequestFailed
  split <;> [rfl; split <;> rfl]

/-- The multiplier update of `mark_request_failed` for a rate-limit error
type: multiply by 2, capped at `max_backoff`. -/
theorem markRequestFailed_mult (s : RLState) (key etype : String) (now : ℚ)
    (ht : etype ∈ rateLimitErrorTypes) :
    (markRequestFailed s key etype now).backoff_multiplier (strLower key) =
      min s.max_backoff (s.backoff_multiplier (strLower key) * 2) := by
  have hc : rateLimitErrorTypes.contains etype = true := List.elem_iff.mpr ht
  unfold markRequestFailed
  rw [if_pos hc]
  simp [updF]

/-- **C5** (confirmed): starting from any reachable multiplier
(`1 ≤ m ≤ 60`) with the configured maximum 60, every step of a run of
consecutive `mark_request_failed` calls with a rate-limit error type
multiplies the multiplier by 2.0 capped at 60, so the multiplier is
monotonically non-decreasing along the run and never exceeds 60. -/
theorem c5_backoff_monotone (s : RLState) (key etype : String) (now : ℚ)
    (ht : etype ∈ rateLimitErrorTypes)
    (hmax : s.max_backoff = 60)
    (h1 : 1 ≤ s.backoff_multiplier (strLower key))
    (h60 : s.backoff_multiplier (strLower key) ≤ 60) :
    ∀ k : ℕ,
      ((failStep key etype now)^[k + 1] s).backoff_multiplier (strLower key) =
        min 60 (((failStep key etype now)^[k] s).backoff_multiplier (strLower key) * 2) ∧
      ((failStep key etype now)^[k] s).backoff_multiplier (strLower key) ≤
        ((failStep key etype now)^[k + 1] s).backoff_multiplier (strLower key) ∧
      ((failStep key etype now)^[k] s).backoff_multiplier (strLower key) ≤ 60 := by
  have hmaxk : ∀ k : ℕ, ((failStep key etype now)^[k] s).max_backoff = 60 := by
    intro k
    induction k with
    | zero => simpa using hmax
    | succ k ih =>
        rw [Function.iterate_succ_apply']
        rw [failStep, markRequestFailed_max_backoff]
        exact ih
  have hstep : ∀ k : ℕ,
      ((failStep key etype now)^[k + 1] s).backoff_multiplier (strLower key) =
        min 60 (((failStep key etype now)^[k] s).backoff_multiplier (strLower key) * 2) := by
    intro k
    rw [Function.iterate_succ_apply']
    rw [failStep, markRequestFailed_mult _ _ _ _ ht, hmaxk k]
  have hinv : ∀ k : ℕ,
      1 ≤ ((failStep key etype now)^[k] s).backoff_multiplier (strLower key) ∧
      ((failStep key etype now)^[k] s).backoff_multiplier (strLower key) ≤ 60 := by
    intro k
    induction k with
    | zero => exact ⟨h1, h60⟩
    | succ k ih =>
        rw [hstep k]
        constructor
        · exact le_min (by norm_num) (by linarith [ih.1])
        · exact min_le_left _ _
  intro k
  refine ⟨hstep k, ?_, (hinv k).2⟩
  rw [hstep k]
  exact le_min (hinv k).2 (by linarith [(hinv k).1])

/-- Witness for C5 at a concrete input: fresh limiter, key `"twitter"`,
error type `"rate_limit"`, first step (`k = 0`): the multiplier goes from
1 to `min 60 (1·2) = 2`, is non-decreasing, and stays ≤ 60. -/
theorem c5_backoff_monotone_witness :
    ((failStep "twitter" "rate_limit" 7)^[1] initRL).backoff_multiplier (strLower "twitter") =
      min 60 (((failStep "twitter" "rate_limit" 7)^[0] initRL).backoff_multiplier
        (strLower "twitter") * 2) ∧
    ((failStep "twitter" "rate_limit" 7)^[0] initRL).backoff_multiplier (strLower "twitter") ≤
      ((failStep "twitter" "rate_limit" 7)^[1] initRL).backoff_multiplier (strLower "twitter") ∧
    ((failStep "twitter" "rate_limit" 7)^[0] initRL).backoff_multiplier (strLower "twitter") ≤
      60 :=
  c5_backoff_monotone initRL "twitter" "rate_limit" 7
    (by simp [rateLimitErrorTypes]) rfl (by with_unfolding_all decide)
    (by with_unfolding_all decide) 0

end Scraper

namespace Scraper

/-!
### The retrying dispatcher (`base_scraper.py`)

`BaseScraper._make_request_with_retry` is wrapped in
`@retry(stop=stop_after_attempt(3),
        retry=retry_if_exception_type((aiohttp.ClientError, asyncio.TimeoutError)))`.
The attempt body raises `aiohttp.ClientResponseError` for any response
with status ≥ 400 (429 first, lines 252-263; then the generic branch,
lines 265-274).  `ClientResponseError` is a subclass of
`aiohttp.ClientError`, so tenacity's `retry_if_exception_type` classifies
it as retryable.
-/

/-- Static configuration of a `BaseScraper`: destination key and which
optional components were constructed (`use_rate_limiting`,
`use_proxies`). -/
structure ScraperCfg where
  platform : String
  hasRateLimiter : Bool
  hasProxyManager : Bool
deriving DecidableEq, Repr

/-- What the environment does to one attempt: the transport call either
yields a response with an HTTP status, or raises `aiohttp.ClientError`
(connection problems) or `asyncio.TimeoutError`. -/
inductive Outcome where
  | status (code : ℕ)
  | transportError
  | timeoutError
deriving DecidableEq, Repr

/-- Exceptions that can escape one attempt body.
`clientResponseError` is the `aiohttp.ClientResponseError` the body raises
for statuses ≥ 400; it is a subclass of `aiohttp.ClientError`. -/
inductive Exc where
  | clientResponseError (status : ℕ)
  | clientError
  | timeoutError
deriving DecidableEq, Repr

/-- The health reports an attempt sends to the rate limiter / proxy pool. -/
inductive Effect where
  | rlFailed (platform : String) (error_type : String)
  | rlSuccess (platform : String)
  | proxyFailed (url : String)
  | proxySuccess (url : String)
deriving DecidableEq, Repr

/-- One attempt body of `_make_request_with_retry` (lines 244-282): the
exception it raises (if any) and the reports it files, in order.  A
transport-level error escapes before any status handling, so it files no
report. -/
def attemptStep (cfg : ScraperCfg) (proxy : Option String) (o : Outcome) :
    Option Exc × List Effect :=
  match o with
  | .transportError => (some .clientError, [])
  | .timeoutError => (some .timeoutError, [])
  | .status c =>
      if c = 429 then
        (some (.clientResponseError 429),
         (if cfg.hasRateLimiter then [.rlFailed cfg.platform "rate_limit"] else []) ++
         (match proxy with
          | some u => if cfg.hasProxyManager then [.proxyFailed u] else []
          | none => []))
      else if 400 ≤ c then
        (some (.clientResponseError c),
         match proxy with
         | some u => if cfg.hasProxyManager then [.proxyFailed u] else []
         | none => [])
      else
        (none,
         (if cfg.hasRateLimiter then [.rlSuccess cfg.platform] else []) ++
         (match proxy with
          | some u => if cfg.hasProxyManager then [.proxySuccess u] else []
          | none => []))

/-- tenacity's `retry_if_exception_type((aiohttp.ClientError,
asyncio.TimeoutError))`: `ClientResponseError` is a `ClientError`. -/
def isRetryableExc : Exc → Bool
  | .clientResponseError _ => true
  | .clientError => true
  | .timeoutError => true

/-- Terminal outcome of `_make_request_with_retry`. -/
inductive ReqResult where
  | success
  | raised (e : Exc)
  | retryExhausted (e : Exc)
deriving DecidableEq, Repr

/-- The tenacity retry loop: `fuel` is the number of attempts still
allowed (`stop_after_attempt(3)` starts it at 3).  `outs` is the sequence
of environment outcomes, one per attempt; the `[]` case cannot be reached
when at least `fuel` outcomes are supplied.  Returns the number of
attempts actually made, the terminal result (after the last allowed
attempt a retryable exception becomes `retryExhausted`, tenacity's
`RetryError`), and all reports filed, in order. -/
def runRetryAux (cfg : ScraperCfg) (proxy : Option String) :
    List Outcome → ℕ → ℕ × ReqResult × List Effect
  | _, 0 => (0, .success, [])
  | [], _ + 1 => (0, .success, [])
  | o :: rest, fuel + 1 =>
      let r := attemptStep cfg proxy o
      match r.1 with
      | none => (1, .success, r.2)
      | some e =>
          if isRetryableExc e then
            if fuel = 0 then (1, .retryExhausted e, r.2)
            else
              let next := runRetryAux cfg proxy rest fuel
              (next.1 + 1, next.2.1, r.2 ++ next.2.2)
          else (1, .raised e, r.2)

/-- `_make_request_with_retry` under its decorator: at most 3 attempts. -/
def runRetry (cfg : ScraperCfg) (proxy : Option String) (outs : List Outcome) :
    ℕ × ReqResult × List Effect :=
  runRetryAux cfg proxy outs 3

/-- Number of attempts a call actually makes. -/
def attemptsUsed (cfg : ScraperCfg) (proxy : Option String) (outs : List Outcome) : ℕ :=
  (runRetry cfg proxy outs).1

/-- A dispatcher with both optional components, no proxy chosen. -/
def twitterCfg : ScraperCfg := ⟨"twitter", true, true⟩

end Scraper

namespace Scraper

/-! ### Claim C2: which outcomes are retried -/

/-- **C2 counterexample**: the claim says a non-429 response with status
≥ 400 is fatal and surfaces immediately without consuming retry attempts.
Concrete input: a dispatcher whose transport returns HTTP 404 on every
attempt.  The body raises `ClientResponseError(404)`, which *is* an
`aiohttp.ClientError`, so tenacity retries it: all 3 attempts are
consumed (not 1), and the error surfaces only as the final exhaustion
error. -/
theorem c2_fatal_counterexample :
    attemptsUsed twitterCfg none [.status 404, .status 404, .status 404] = 3 ∧
    attemptsUsed twitterCfg none [.status 404, .status 404, .status 404] ≠ 1 ∧
    (runRetry twitterCfg none [.status 404, .status 404, .status 404]).2.1 =
      .retryExhausted (.clientResponseError 404) := by
  refine ⟨?_, ?_, ?_⟩ <;> decide

/-- **C2** (amended): every response with status ≥ 400 — 429 or not — is
raised as `aiohttp.ClientResponseError`, a subclass of
`aiohttp.ClientError`, and is therefore retried exactly like a 429 or a
transport error: while further attempts remain it consumes one attempt
and the loop continues with the next outcome. -/
theorem c2_non429_retried (cfg : ScraperCfg) (proxy : Option String) (c : ℕ)
    (rest : List Outcome) (fuel : ℕ) (hc : 400 ≤ c) :
    runRetryAux cfg proxy (.status c :: rest) (fuel + 2) =
      ((runRetryAux cfg proxy rest (fuel + 1)).1 + 1,
       (runRetryAux cfg proxy rest (fuel + 1)).2.1,
       (attemptStep cfg proxy (.status c)).2 ++
         (runRetryAux cfg proxy rest (fuel + 1)).2.2) := by
  have hexc : (attemptStep cfg proxy (.status c)).1 =
      some (.clientResponseError (if c = 429 then 429 else c)) := by
    by_cases h429 : c = 429 <;> simp [attemptStep, h429, hc]
  rw [runRetryAux, hexc]
  simp [isRetryableExc]

/-- Witness for C2 (amended) at a concrete input: a 500 on the first
attempt is retried, a success on the second ends the call; two attempts
are consumed. -/
theorem c2_non429_retried_witness :
    runRetryAux twitterCfg none [.status 500, .status 200] (0 + 2) =
      ((runRetryAux twitterCfg none [.status 200] (0 + 1)).1 + 1,
       (runRetryAux twitterCfg none [.status 200] (0 + 1)).2.1,
       (attemptStep twitterCfg none (.status 500)).2 ++
         (runRetryAux twitterCfg none [.status 200] (0 + 1)).2.2) :=
  c2_non429_retried twitterCfg none 500 [.status 200] 0 (by norm_num)

/-! ### Claim C9: dual penalty on HTTP 429 -/

/-- **C9** (confirmed): an attempt that receives HTTP 429 reports the
failure to both components: if the scraper has a rate limiter,
`mark_request_failed` is filed with error type `"rate_limit"` (one of the
rate-limited kinds the limiter recognises); and if a proxy carried the
attempt and the proxy manager exists, `mark_proxy_failed` is filed for
that proxy. -/
theorem c9_dual_penalty_429 (cfg : ScraperCfg) (proxy : Option String)
    (hrl : cfg.hasRateLimiter = true) :
    (Effect.rlFailed cfg.platform "rate_limit" ∈ (attemptStep cfg proxy (.status 429)).2 ∧
      "rate_limit" ∈ rateLimitErrorTypes) ∧
    (∀ u : String, proxy = some u → cfg.hasProxyManager = true →
      Effect.proxyFailed u ∈ (attemptStep cfg proxy (.status 429)).2) := by
  constructor
  · exact ⟨by simp [attemptStep, hrl], by simp [rateLimitErrorTypes]⟩
  · intro u hu hpm
    simp [attemptStep, hu, hpm, hrl]

/-- Witness for C9 at a concrete input: both components present, proxy
`"http://1.2.3.4:80"` used. -/
theorem c9_dual_penalty_429_witness :
    (Effect.rlFailed twitterCfg.platform "rate_limit" ∈
        (attemptStep twitterCfg (some "http://1.2.3.4:80") (.status 429)).2 ∧
      "rate_limit" ∈ rateLimitErrorTypes) ∧
    Effect.proxyFailed "http://1.2.3.4:80" ∈
      (attemptStep twitterCfg (some "http://1.2.3.4:80") (.status 429)).2 :=
  ⟨(c9_dual_penalty_429 twitterCfg (some "http://1.2.3.4:80") rfl).1,
   (c9_dual_penalty_429 twitterCfg (some "http://1.2.3.4:80") rfl).2
     "http://1.2.3.4:80" rfl rfl⟩

end Scraper

namespace Scraper

/-!
### The proxy manager (`proxy_manager.py`)

`working_proxies` holds the same `Proxy` objects as `proxies`, and every
operation on it (membership in `mark_proxy_success`, removal in
`mark_proxy_failed`, `random.choice(...).url` in `get_proxy`,
`len(...)`) observes only the proxies' URLs, so the working subset is
modelled as the list of those URLs while `proxies` is the authoritative
store of per-proxy attributes.
-/

/-- The `Proxy` dataclass (proxy_manager.py lines 21-34); the optional
metadata fields (`country`, `anonymity`, `speed`, `last_checked`) are
never read by the modelled operations and are omitted. -/
structure Proxy where
  url : String
  protocol : String
  ip : String
  port : ℕ
  is_working : Bool := true
  fail_count : ℕ := 0
  success_count : ℕ := 0
deriving DecidableEq, Repr

/-- `ProxyManager` state (`__init__`, lines 42-76).  `failed_proxies` is
the Python `set` as a deduplicated list. -/
structure PMState where
  use_proxies : Bool
  max_proxy_retries : ℕ
  proxies : List Proxy
  working_proxies : List String
  failed_proxies : List String
deriving DecidableEq, Repr

/-- The `for proxy in self.proxies: if proxy.url == proxy_url: ...; break`
loop of `mark_proxy_failed` (lines 122-133): update the *first* matching
entry and report its new fail count (`none` when no entry matches). -/
def markFirst : List Proxy → String → List Proxy × Option ℕ
  | [], _ => ([], none)
  | p :: ps, u =>
      if p.url = u then
        ({ p with fail_count := p.fail_count + 1, is_working := false } :: ps,
         some (p.fail_count + 1))
      else
        (p :: (markFirst ps u).1, (markFirst ps u).2)

/-- Python `set.add`. -/
def insertIfAbsent (u : String) (l : List String) : List String :=
  if l.contains u then l else u :: l

/-- `ProxyManager.mark_proxy_failed` (lines 112-133): bump the first
matching proxy's fail count, clear its working flag, and once the count
reaches `max_proxy_retries` evict the address from the working subset and
remember it in `failed_proxies`. -/
def markProxyFailed (s : PMState) (u : String) : PMState :=
  if s.use_proxies = false then s
  else
    match (markFirst s.proxies u).2 with
    | none => { s with proxies := (markFirst s.proxies u).1 }
    | some c =>
        if s.max_proxy_retries ≤ c then
          { s with
            proxies := (markFirst s.proxies u).1
            failed_proxies := insertIfAbsent u s.failed_proxies
            working_proxies := s.working_proxies.filter (fun w => w ≠ u) }
        else { s with proxies := (markFirst s.proxies u).1 }

/-- The addresses `ProxyManager.get_proxy` (lines 89-110) can return: the
URL of any member of the current working subset (`random.choice`), when
proxies are in use.  The rotation/revalidation branch (`_should_rotate` →
`_rotate_proxies`), which is the "fresh validation cycle" that can
re-admit evicted proxies, is outside this selection relation. -/
def getProxyCan (s : PMState) (u : String) : Prop :=
  s.use_proxies = true ∧ u ∈ s.working_proxies

instance (s : PMState) (u : String) : Decidable (getProxyCan s u) := by
  unfold getProxyCan
  infer_instance

end Scraper


namespace Scraper

/-- A loop that finds no matching URL changes nothing. -/
theorem markFirst_none (u : String) :
    ∀ ps : List Proxy, ps.find? (fun q => q.url == u) = none → markFirst ps u = (ps, none) := by
  intro ps
  induction ps with
  | nil => intro _; rfl
  | cons q ps ih =>
      intro h
      rw [List.find?_cons] at h
      split at h
      · exact absurd h (by simp)
      · rename_i hq
        have hne : ¬ q.url = u := by simpa using hq
        unfold markFirst
        rw [if_neg hne, ih h]

/-- A loop that finds a first matching entry `p` bumps exactly that entry:
the reported fail count is `p.fail_count + 1` and the updated store's
first match is the bumped record with `is_working := false`. -/
theorem markFirst_some (u : String) :
    ∀ (ps : List Proxy) (p : Proxy), ps.find? (fun q => q.url == u) = some p →
      (markFirst ps u).2 = some (p.fail_count + 1) ∧
      (markFirst ps u).1.find? (fun q => q.url == u) =
        some { p with fail_count := p.fail_count + 1, is_working := false } := by
  intro ps
  induction ps with
  | nil => intro p h; exact absurd h (by simp)
  | cons q ps ih =>
      intro p h
      rw [List.find?_cons] at h
      split at h
      · rename_i hq
        have hqu : q.url = u := by simpa using hq
        have hp : q = p := by simpa using h
        subst hp
        unfold markFirst
        rw [if_pos hqu]
        refine ⟨rfl, ?_⟩
        simp [List.find?_cons, hqu]
      · rename_i hq
        have hne : ¬ q.url = u := by simpa using hq
        obtain ⟨ih1, ih2⟩ := ih p h
        unfold markFirst
        rw [if_neg hne]
        refine ⟨ih1, ?_⟩
        rw [List.find?_cons]
        have hf : (q.url == u) = false := by simpa using hne
        simp only [hf]
        exact ih2

/-- The loop body never changes the multiset of stored URLs. -/
theorem markFirst_urls (u : String) :
    ∀ ps : List Proxy, (markFirst ps u).1.map (fun q => q.url) = ps.map (fun q => q.url) := by
  intro ps
  induction ps with
  | nil => rfl
  | cons q ps ih =>
      unfold markFirst
      by_cases hq : q.url = u
      · rw [if_pos hq]
        simp
      · rw [if_neg hq]
        simpa using ih

end Scraper

namespace Scraper

/-- `mark_proxy_failed` never changes `use_proxies` or
`max_proxy_retries`. -/
theorem markProxyFailed_config (s : PMState) (u : String) :
    (markProxyFailed s u).use_proxies = s.use_proxies ∧
    (markProxyFailed s u).max_proxy_retries = s.max_proxy_retries := by
  unfold markProxyFailed
  split
  · exact ⟨rfl, rfl⟩
  · split
    · exact ⟨rfl, rfl⟩
    · split <;> exact ⟨rfl, rfl⟩

/-- One `mark_proxy_failed` call on a URL present in the store bumps the
first matching record's fail count and clears its working flag. -/
theorem markProxyFailed_find (s : PMState) (u : String) (p : Proxy)
    (hu : s.use_proxies = true)
    (hfind : s.proxies.find? (fun q => q.url == u) = some p) :
    (markProxyFailed s u).proxies.find? (fun q => q.url == u) =
      some { p with fail_count := p.fail_count + 1, is_working := false } := by
  obtain ⟨h2, h1⟩ := markFirst_some u s.proxies p hfind
  unfold markProxyFailed
  rw [hu]
  simp only [Bool.true_eq_false, if_false, h2]
  split <;> exact h1

/-- Below the threshold, `mark_proxy_failed` leaves the working subset
untouched. -/
theorem markProxyFailed_working_below (s : PMState) (u : String) (p : Proxy)
    (hu : s.use_proxies = true)
    (hfind : s.proxies.find? (fun q => q.url == u) = some p)
    (hlt : p.fail_count + 1 < s.max_proxy_retries) :
    (markProxyFailed s u).working_proxies = s.working_proxies := by
  obtain ⟨h2, -⟩ := markFirst_some u s.proxies p hfind
  unfold markProxyFailed
  rw [hu]
  simp only [Bool.true_eq_false, if_false, h2]
  rw [if_neg (not_le.mpr hlt)]

/-- At or above the threshold, `mark_proxy_failed` evicts the URL from the
working subset. -/
theorem markProxyFailed_evicts (s : PMState) (u : String) (p : Proxy)
    (hu : s.use_proxies = true)
    (hfind : s.proxies.find? (fun q => q.url == u) = some p)
    (hge : s.max_proxy_retries ≤ p.fail_count + 1) :
    u ∉ (markProxyFailed s u).working_proxies := by
  obtain ⟨h2, -⟩ := markFirst_some u s.proxies p hfind
  unfold markProxyFailed
  rw [hu]
  simp only [Bool.true_eq_false, if_false, h2]
  rw [if_pos hge]
  simp

/-- Along `k` consecutive `mark_proxy_failed` calls the configuration is
unchanged and the first matching record's fail count grows by exactly
`k`. -/
theorem markProxyFailed_iterate (s : PMState) (u : String) (p : Proxy)
    (hu : s.use_proxies = true)
    (hfind : s.proxies.find? (fun q => q.url == u) = some p) :
    ∀ k : ℕ,
      ((fun t => markProxyFailed t u)^[k] s).use_proxies = true ∧
      ((fun t => markProxyFailed t u)^[k] s).max_proxy_retries = s.max_proxy_retries ∧
      ∃ q : Proxy,
        ((fun t => markProxyFailed t u)^[k] s).proxies.find? (fun q' => q'.url == u) = some q ∧
        q.fail_count = p.fail_count + k := by
  intro k
  induction k with
  | zero => exact ⟨hu, rfl, p, hfind, rfl⟩
  | succ k ih =>
      obtain ⟨ihu, ihm, q, ihq, ihc⟩ := ih
      rw [Function.iterate_succ_apply']
      obtain ⟨cu, cm⟩ := markProxyFailed_config ((fun t => markProxyFailed t u)^[k] s) u
      refine ⟨by rw [cu, ihu], by rw [cm, ihm], ?_⟩
      refine ⟨_, markProxyFailed_find _ u q ihu ihq, ?_⟩
      show q.fail_count + 1 = p.fail_count + (k + 1)
      omega

/-- **C8** (confirmed): after `N ≥ max_proxy_retries` (and `N ≥ 1`)
consecutive `mark_proxy_failed` calls for an address present in the proxy
store, with no intervening success or rotation/revalidation, the address
is out of the working subset and `get_proxy`'s selection can no longer
return it (re-admission needs `mark_proxy_success` or a fresh
rotation/validation cycle, both outside this run). -/
theorem c8_proxy_eviction (s : PMState) (u : String) (p : Proxy) (n : ℕ)
    (hu : s.use_proxies = true)
    (hfind : s.proxies.find? (fun q => q.url == u) = some p)
    (hn : s.max_proxy_retries ≤ n) (hpos : 1 ≤ n) :
    u ∉ ((fun t => markProxyFailed t u)^[n] s).working_proxies ∧
    ¬ getProxyCan ((fun t => markProxyFailed t u)^[n] s) u := by
  obtain ⟨m, rfl⟩ : ∃ m, n = m + 1 := ⟨n - 1, (Nat.succ_pred_eq_of_pos hpos).symm⟩
  obtain ⟨ihu, ihm, q, ihq, ihc⟩ := markProxyFailed_iterate s u p hu hfind m
  rw [Function.iterate_succ_apply']
  have hge : ((fun t => markProxyFailed t u)^[m] s).max_proxy_retries ≤ q.fail_count + 1 := by
    rw [ihm, ihc]
    omega
  have hout := markProxyFailed_evicts _ u q ihu ihq hge
  exact ⟨hout, fun hcan => hout hcan.2⟩

/-- A one-proxy pool used by the concrete C8/C10 witnesses. -/
def demoPM : PMState where
  use_proxies := true
  max_proxy_retries := 3
  proxies := [⟨"http://1.2.3.4:80", "http", "1.2.3.4", 80, true, 0, 0⟩]
  working_proxies := ["http://1.2.3.4:80"]
  failed_proxies := []

/-- Witness for C8 at a concrete input: one working proxy, threshold 3,
three consecutive failures evict it. -/
theorem c8_proxy_eviction_witness :
    "http://1.2.3.4:80" ∉
      ((fun t => markProxyFailed t "http://1.2.3.4:80")^[3] demoPM).working_proxies ∧
    ¬ getProxyCan ((fun t => markProxyFailed t "http://1.2.3.4:80")^[3] demoPM)
      "http://1.2.3.4:80" :=
  c8_proxy_eviction demoPM "http://1.2.3.4:80"
    ⟨"http://1.2.3.4:80", "http", "1.2.3.4", 80, true, 0, 0⟩ 3
    rfl (by decide) (by decide) (by norm_num)

/-! ### Claim C10: below the threshold the proxy stays selectable -/

/-- **C10** (confirmed): when a `mark_proxy_failed` call leaves the first
matching record's fail count still below `max_proxy_retries`, the address
stays in the working subset (so `get_proxy` may still return it) even
though the record's `is_working` flag is now `false`; eviction happens
only once the count reaches the threshold (claim C8). -/
theorem c10_below_threshold_retained (s : PMState) (u : String) (p : Proxy)
    (hu : s.use_proxies = true)
    (hfind : s.proxies.find? (fun q => q.url == u) = some p)
    (hlt : p.fail_count + 1 < s.max_proxy_retries)
    (hw : u ∈ s.working_proxies) :
    u ∈ (markProxyFailed s u).working_proxies ∧
    (markProxyFailed s u).proxies.find? (fun q => q.url == u) =
      some { p with fail_count := p.fail_count + 1, is_working := false } ∧
    getProxyCan (markProxyFailed s u) u := by
  have hwork := markProxyFailed_working_below s u p hu hfind hlt
  have hmem : u ∈ (markProxyFailed s u).working_proxies := hwork ▸ hw
  exact ⟨hmem, markProxyFailed_find s u p hu hfind,
    (markProxyFailed_config s u).1.trans hu, hmem⟩

/-- Witness for C10 at a concrete input: threshold 3, first failure
(count 1 < 3) keeps the proxy selectable with `is_working = false`. -/
theorem c10_below_threshold_retained_witness :
    "http://1.2.3.4:80" ∈ (markProxyFailed demoPM "http://1.2.3.4:80").working_proxies ∧
    (markProxyFailed demoPM "http://1.2.3.4:80").proxies.find?
        (fun q => q.url == "http://1.2.3.4:80") =
      some ⟨"http://1.2.3.4:80", "http", "1.2.3.4", 80, false, 1, 0⟩ ∧
    getProxyCan (markProxyFailed demoPM "http://1.2.3.4:80") "http://1.2.3.4:80" :=
  c10_below_threshold_retained demoPM "http://1.2.3.4:80"
    ⟨"http://1.2.3.4:80", "http", "1.2.3.4", 80, true, 0, 0⟩
    rfl (by decide) (by decide) (by decide)

end Scraper

namespace Scraper

/-- Every `acquire` call either records (returns `True` with the
rate-limit check passed, limiter enabled) or leaves the state unchanged
(`False`, a `KeyError`, or a disabled limiter's unrecorded `True`). -/
theorem acquire_cases (s : RLState) (p : String) (now : ℚ) :
    (acqRecorded s p now = true ∧
      acquireState s p now = recordRequest s (strLower p) now ∧
      checkRateLimits s (strLower p) (getRL s (strLower p)) now = true ∧
      s.enabled = true) ∨
    (acqRecorded s p now = false ∧ acquireState s p now = s) := by
  by_cases hen : s.enabled = true
  · cases hib : isInBackoff s (strLower p) now with
    | error e =>
        right
        constructor <;> simp [acqRecorded, acquireState, acquire, hen, hib]
    | ok b =>
        cases b with
        | true =>
            right
            constructor <;> simp [acqRecorded, acquireState, acquire, hen, hib]
        | false =>
            by_cases hchk : checkRateLimits s (strLower p) (getRL s (strLower p)) now = true
            · left
              refine ⟨?_, ?_, hchk, hen⟩ <;>
                simp [acqRecorded, acquireState, acquire, hen, hib, hchk]
            · have hchk' : checkRateLimits s (strLower p) (getRL s (strLower p)) now = false := by
                revert hchk
                cases checkRateLimits s (strLower p) (getRL s (strLower p)) now <;> simp
              right
              constructor <;> simp [acqRecorded, acquireState, acquire, hen, hib, hchk']
  · have hen0 : s.enabled = false := by revert hen; cases s.enabled <;> simp
    right
    constructor
    · simp [acqRecorded, hen0]
    · simp [acquireState, acquire, hen0]

/-- `mark_request_failed` touches only the backoff multiplier and the
last-request timestamp. -/
theorem markRequestFailed_fields (s : RLState) (key etype : String) (now : ℚ) :
    (markRequestFailed s key etype now).rate_limits = s.rate_limits ∧
    (markRequestFailed s key etype now).request_history = s.request_history ∧
    (markRequestFailed s key etype now).enabled = s.enabled := by
  unfold markRequestFailed
  split
  · exact ⟨rfl, rfl, rfl⟩
  · split <;> exact ⟨rfl, rfl, rfl⟩

/-- No trace event changes the configuration dict (there is no
`set_rate_limit` event). -/
theorem stepState_rate_limits (s : RLState) (e : REvent) :
    (stepState s e).rate_limits = s.rate_limits := by
  cases e with
  | acq p now =>
      rcases acquire_cases s p now with ⟨-, hst, -, -⟩ | ⟨-, hst⟩ <;>
        simp [stepState, hst, recordRequest]
  | success p => exact (markRequestSuccess_fields s p).1
  | failed p et now => exact (markRequestFailed_fields s p et now).1
  | reset p => rfl

/-- Configuration invariance along a whole trace. -/
theorem run_rate_limits (evs : List REvent) :
    ∀ s : RLState, (run s evs).rate_limits = s.rate_limits := by
  induction evs with
  | nil => intro s; rfl
  | cons e evs ih =>
      intro s
      rw [run, List.foldl_cons]
      exact (ih (stepState s e)).trans (stepState_rate_limits s e)

/-- `getRL` reads only the configuration dict. -/
theorem getRL_congr (s s' : RLState) (h : s'.rate_limits = s.rate_limits) (p : String) :
    getRL s' p = getRL s p := by
  unfold getRL
  rw [h]

/-- How one event changes the history of key `k`: only a recorded
`acquire` on `k` appends (and truncates to the 1000 newest). -/
theorem stepState_history (s : RLState) (k : String) (e : REvent) :
    (stepState s e).request_history k =
      (match e with
       | .acq p now =>
           if strLower p = k ∧ acqRecorded s p now = true
           then ((now :: s.request_history k).take 1000)
           else s.request_history k
       | _ => s.request_history k) := by
  cases e with
  | acq p now =>
      show (acquireState s p now).request_history k =
        if strLower p = k ∧ acqRecorded s p now = true
        then ((now :: s.request_history k).take 1000)
        else s.request_history k
      rcases acquire_cases s p now with ⟨hrec, hst, -, -⟩ | ⟨hrec, hst⟩
      · rw [hst]
        by_cases hk : strLower p = k
        · rw [if_pos ⟨hk, hrec⟩]
          subst hk
          simp [recordRequest, updF]
        · rw [if_neg (fun hc => hk hc.1)]
          have hne : ¬ (k = strLower p) := fun h => hk h.symm
          simp [recordRequest, updF, hne]
      · rw [hst, if_neg (fun hc => by rw [hrec] at hc; exact absurd hc.2 (by simp))]
  | success p => exact congrFun (markRequestSuccess_fields s p).2.1 k
  | failed p et now => exact congrFun (markRequestFailed_fields s p et now).2.1 k
  | reset p => rfl

end Scraper


namespace Scraper

/-- The timestamps one event contributes to `recordedOf`. -/
def recAt (s : RLState) (k : String) : REvent → List ℚ
  | .acq p now => if strLower p = k ∧ acqRecorded s p now = true then [now] else []
  | _ => []

/-- `recordedOf` on a cons, through `recAt`. -/
theorem recordedOf_cons (s : RLState) (k : String) (e : REvent) (evs : List REvent) :
    recordedOf s k (e :: evs) = recAt s k e ++ recordedOf (stepState s e) k evs := by
  cases e <;> rfl

/-- Running a concatenated trace. -/
theorem run_append (s : RLState) (xs ys : List REvent) :
    run s (xs ++ ys) = run (run s xs) ys :=
  List.foldl_append ..

/-- Recorded timestamps of a concatenated trace. -/
theorem recordedOf_append (k : String) :
    ∀ (xs ys : List REvent) (s : RLState),
      recordedOf s k (xs ++ ys) = recordedOf s k xs ++ recordedOf (run s xs) k ys := by
  intro xs
  induction xs with
  | nil => intro ys s; rfl
  | cons e xs ih =>
      intro ys s
      rw [List.cons_append, recordedOf_cons, recordedOf_cons, ih ys (stepState s e),
        List.append_assoc]
      rfl

/-- The bounded append also absorbs an inner truncation. -/
theorem take_append_take (a b : List ℚ) (n : ℕ) :
    (a ++ b.take n).take n = (a ++ b).take n := by
  rw [List.take_append_eq_append_take, List.take_append_eq_append_take, List.take_take,
    min_eq_left (Nat.sub_le n a.length)]

/-- The history of key `k` after a trace is the 1000 newest recorded
timestamps (newest first) on top of the starting history. -/
theorem run_history (k : String) :
    ∀ (evs : List REvent) (s : RLState), (s.request_history k).length ≤ 1000 →
      (run s evs).request_history k =
        ((recordedOf s k evs).reverse ++ s.request_history k).take 1000 := by
  intro evs
  induction evs with
  | nil =>
      intro s hlen
      exact (List.take_of_length_le (by simpa using hlen)).symm
  | cons e evs ih =>
      intro s hlen
      have hrun : run s (e :: evs) = run (stepState s e) evs := rfl
      rw [hrun, recordedOf_cons]
      cases e with
      | acq p now =>
          have hstep : (stepState s (.acq p now)).request_history k =
              if strLower p = k ∧ acqRecorded s p now = true
              then ((now :: s.request_history k).take 1000)
              else s.request_history k := stepState_history s k (.acq p now)
          by_cases hc : strLower p = k ∧ acqRecorded s p now = true
          · rw [if_pos hc] at hstep
            have hlen' : ((stepState s (.acq p now)).request_history k).length ≤ 1000 := by
              rw [hstep]
              exact List.length_take_le ..
            rw [ih _ hlen', hstep]
            have hpre : recAt s k (.acq p now) = [now] := if_pos hc
            rw [hpre, List.reverse_append, List.append_assoc]
            rw [show ([now].reverse ++ s.request_history k) = now :: s.request_history k from rfl]
            exact take_append_take ..
          · rw [if_neg hc] at hstep
            have hlen' : ((stepState s (.acq p now)).request_history k).length ≤ 1000 := by
              rw [hstep]; exact hlen
            rw [ih _ hlen', hstep]
            have hpre : recAt s k (.acq p now) = [] := if_neg hc
            rw [hpre, List.nil_append]
      | success p =>
          have hstep : (stepState s (.success p)).request_history k =
              s.request_history k := stepState_history s k (.success p)
          rw [ih _ (by rw [hstep]; exact hlen), hstep]
          rfl
      | failed p et now =>
          have hstep : (stepState s (.failed p et now)).request_history k =
              s.request_history k := stepState_history s k (.failed p et now)
          rw [ih _ (by rw [hstep]; exact hlen), hstep]
          rfl
      | reset p =>
          have hstep : (stepState s (.reset p)).request_history k =
              s.request_history k := stepState_history s k (.reset p)
          rw [ih _ (by rw [hstep]; exact hlen), hstep]
          rfl

/-- Recorded timestamps are a subsequence of the trace's clock readings. -/
theorem recordedOf_sublist (k : String) :
    ∀ (evs : List REvent) (s : RLState),
      List.Sublist (recordedOf s k evs) (evs.filterMap evTime) := by
  intro evs
  induction evs with
  | nil => intro s; exact List.Sublist.refl []
  | cons e evs ih =>
      intro s
      rw [recordedOf_cons, List.filterMap_cons]
      cases e with
      | acq p now =>
          show (recAt s k (.acq p now) ++ _).Sublist (now :: evs.filterMap evTime)
          by_cases hc : strLower p = k ∧ acqRecorded s p now = true
          · rw [show recAt s k (.acq p now) = [now] from if_pos hc]
            exact List.Sublist.cons₂ now (ih _)
          · rw [show recAt s k (.acq p now) = [] from if_neg hc, List.nil_append]
            exact List.Sublist.cons now (ih _)
      | success p => exact ih _
      | failed p et now =>
          show (recAt s k (.failed p et now) ++ _).Sublist (now :: evs.filterMap evTime)
          exact List.Sublist.cons now (ih _)
      | reset p => exact ih _

end Scraper

namespace Scraper

/-- When every timestamp is at most `t`, the trailing-window count is the
plain strict-cutoff count the limiter computes. -/
theorem windowCount_eq_countP (A : List ℚ) (t L : ℚ) (h : ∀ a ∈ A, a ≤ t) :
    windowCount A t L = A.countP (fun x => decide (t - L < x)) := by
  unfold windowCount
  refine List.countP_congr (fun a ha => ?_)
  simp only [Bool.and_eq_true, decide_eq_true_eq]
  exact ⟨fun hx => hx.1, fun hx => ⟨hx, h a ha⟩⟩

/-- On a non-increasing list, entries above a cutoff form a prefix, so a
`take` keeps `min(count, n)` of them. -/
theorem countP_take_of_antitone (c : ℚ) :
    ∀ (B : List ℚ), B.Pairwise (fun a b => b ≤ a) → ∀ n : ℕ,
      (B.take n).countP (fun x => decide (c < x)) =
        min (B.countP (fun x => decide (c < x))) n := by
  intro B
  induction B with
  | nil => intro _ n; simp
  | cons b B ih =>
      intro hp n
      have hp' := (List.pairwise_cons.mp hp).2
      have hble := (List.pairwise_cons.mp hp).1
      cases n with
      | zero => simp
      | succ n =>
          rw [List.take_succ_cons, List.countP_cons, List.countP_cons, ih hp' n]
          by_cases hb : c < b
          · rw [decide_eq_true hb]
            rw [show (if (true : Bool) = true then 1 else 0) = 1 from if_pos rfl]
            omega
          · have hzero : B.countP (fun x => decide (c < x)) = 0 := by
              rw [List.countP_eq_zero]
              intro a ha
              simp only [decide_eq_true_eq]
              exact fun hca => hb (lt_of_lt_of_le hca (hble a ha))
            rw [decide_eq_false hb]
            rw [show (if (false : Bool) = true then 1 else 0) = 0 from if_neg (by simp)]
            rw [hzero]
            omega

/-- The single-event window count. -/
theorem windowCount_singleton (u t L : ℚ) :
    windowCount [u] t L = if t - L < u ∧ u ≤ t then 1 else 0 := by
  by_cases h : t - L < u ∧ u ≤ t
  · rw [if_pos h]
    simp [windowCount, h.1, h.2]
  · rw [if_neg h]
    rw [Classical.not_and_iff_or_not_not] at h
    rcases h with h | h <;> simp [windowCount, h]

/-- Master bound: starting from an empty history for key `k`, if every
recorded `acquire` must pass a strict `< K` count over the current
history with trailing cutoff `now - L`, and `K` does not exceed the
1000-entry history capacity, then no trailing window of length `L` ever
holds more than `K` recorded requests.  The heart of the argument: the
recorded timestamps inside any window form a *suffix* of the recorded
sequence (timestamps are non-decreasing along the trace), and a suffix of
length ≤ 1000 survives the deque truncation, so the admission check saw
all of it. -/
theorem windowBound (k : String) (L : ℚ) (K : ℕ) (hK : K ≤ 1000) (s : RLState)
    (hhist : s.request_history k = [])
    (hcheck : ∀ (s' : RLState) (p : String) (u : ℚ), strLower p = k →
        s'.rate_limits = s.rate_limits → acqRecorded s' p u = true →
        (s'.request_history k).countP (fun r => decide (u - L < r)) < K) :
    ∀ evs : List REvent, (evs.filterMap evTime).Pairwise (· ≤ ·) →
      ∀ t : ℚ, windowCount (recordedOf s k evs) t L ≤ K := by
  intro evs
  induction evs using List.reverseRecOn with
  | nil =>
      intro _ t
      simp [recordedOf, windowCount]
  | append_singleton evs e ih =>
      intro hsort t
      have hsplit := List.pairwise_append.mp
        (by rwa [List.filterMap_append] at hsort)
      have hfront : (evs.filterMap evTime).Pairwise (· ≤ ·) := hsplit.1
      rw [recordedOf_append k evs [e] s]
      set S := run s evs with hS
      set A := recordedOf s k evs with hA
      have hrecsingle : recordedOf S k [e] = recAt S k e := by
        rw [recordedOf_cons]
        simp [recordedOf]
      rw [hrecsingle]
      cases e with
      | success p =>
          rw [show recAt S k (.success p) = [] from rfl, List.append_nil]
          exact ih hfront t
      | reset p =>
          rw [show recAt S k (.reset p) = [] from rfl, List.append_nil]
          exact ih hfront t
      | failed p et now =>
          rw [show recAt S k (.failed p et now) = [] from rfl, List.append_nil]
          exact ih hfront t
      | acq p u =>
          by_cases hc : strLower p = k ∧ acqRecorded S p u = true
          case neg =>
            rw [show recAt S k (.acq p u) = [] from if_neg hc, List.append_nil]
            exact ih hfront t
          case pos =>
            rw [show recAt S k (.acq p u) = [u] from if_pos hc]
            unfold windowCount
            rw [List.countP_append]
            rw [show ([u].countP (fun x => decide (t - L < x) && decide (x ≤ t)))
              = windowCount [u] t L from rfl, windowCount_singleton]
            by_cases hw : t - L < u ∧ u ≤ t
            case neg =>
              rw [if_neg hw]
              have := ih hfront t
              unfold windowCount at this
              omega
            case pos =>
              rw [if_pos hw]
              -- the admitted call's check bounds the earlier in-window records
              have hmemu : u ∈ ([REvent.acq p u].filterMap evTime) := by simp [evTime]
              have hAle : ∀ a ∈ A, a ≤ u := fun a ha =>
                hsplit.2.2 a ((recordedOf_sublist k evs s).subset ha) u hmemu
              have hAsort : A.Pairwise (· ≤ ·) :=
                hfront.sublist (recordedOf_sublist k evs s)
              have hAt : ∀ a ∈ A, a ≤ t := fun a ha => (hAle a ha).trans hw.2
              have hwc : windowCount A t L = A.countP (fun x => decide (t - L < x)) :=
                windowCount_eq_countP A t L hAt
              have hhistS : S.request_history k = (A.reverse).take 1000 := by
                rw [hS, run_history k evs s (by rw [hhist]; simp), hhist, List.append_nil]
              have hchk := hcheck S p u hc.1 (run_rate_limits evs s) hc.2
              rw [hhistS] at hchk
              have hrevsort : A.reverse.Pairwise (fun a b => b ≤ a) := by
                rw [List.pairwise_reverse]
                exact hAsort
              have htake := countP_take_of_antitone (t - L) A.reverse hrevsort 1000
              have hmono : (A.reverse.take 1000).countP (fun x => decide (t - L < x)) ≤
                  (A.reverse.take 1000).countP (fun r => decide (u - L < r)) := by
                refine List.countP_mono_left (fun a _ ha => ?_)
                simp only [decide_eq_true_eq] at ha ⊢
                have : u - L ≤ t - L := by linarith [hw.2]
                linarith
              have hrev : A.reverse.countP (fun x => decide (t - L < x)) =
                  A.countP (fun x => decide (t - L < x)) := List.countP_reverse ..
              rw [hrev] at htake
              unfold windowCount at hwc
              omega

end Scraper

namespace Scraper

/-- A passed `_check_rate_limits` means all three window counts were
strictly below their ceilings. -/
theorem checkRateLimits_true (s : RLState) (p : String) (rl : RateLimit) (now : ℚ)
    (h : checkRateLimits s p rl now = true) :
    (s.request_history p).countP (fun r => decide (now - 60 < r)) < rl.requests_per_minute ∧
    (s.request_history p).countP (fun r => decide (now - 3600 < r)) < rl.requests_per_hour ∧
    (s.request_history p).countP (fun r => decide (now - 86400 < r)) < rl.requests_per_day := by
  unfold checkRateLimits at h
  by_cases h1 : rl.requests_per_minute ≤
      (s.request_history p).countP (fun r => decide (now - 60 < r))
  · rw [if_pos h1] at h
    exact absurd h (by simp)
  · rw [if_neg h1] at h
    by_cases h2 : rl.requests_per_hour ≤
        (s.request_history p).countP (fun r => decide (now - 3600 < r))
    · rw [if_pos h2] at h
      exact absurd h (by simp)
    · rw [if_neg h2] at h
      by_cases h3 : rl.requests_per_day ≤
          (s.request_history p).countP (fun r => decide (now - 86400 < r))
      · rw [if_pos h3] at h
        exact absurd h (by simp)
      · exact ⟨not_le.mp h1, not_le.mp h2, not_le.mp h3⟩

/-- A recorded `acquire` passed `_check_rate_limits` on the current
state. -/
theorem acqRecorded_check (s : RLState) (p : String) (now : ℚ)
    (h : acqRecorded s p now = true) :
    checkRateLimits s (strLower p) (getRL s (strLower p)) now = true := by
  rcases acquire_cases s p now with ⟨-, -, hchk, -⟩ | ⟨hrec, -⟩
  · exact hchk
  · rw [h] at hrec
    exact absurd hrec (by simp)

/-- **C1** (amended): along any trace of `acquire` calls (with
`wait_if_needed`, success/failure marks and burst-reset tasks freely
interleaved) whose clock readings are non-decreasing, starting from an
empty history for the key, the recorded requests inside any trailing
minute / hour / day window never exceed the key's configured ceiling —
*provided that ceiling is at most the 1000-entry history capacity*.
All built-in per-minute and per-hour ceilings (and all per-day ceilings
except `"general"`'s 2000) satisfy this; for a ceiling above 1000 the
bound can fail (see the day-window counterexample). -/
theorem c1_sliding_window_bound (s : RLState) (k : String) (evs : List REvent) (t : ℚ)
    (hhist : s.request_history k = [])
    (hsort : (evs.filterMap evTime).Pairwise (· ≤ ·)) :
    ((getRL s k).requests_per_minute ≤ 1000 →
      windowCount (recordedOf s k evs) t 60 ≤ (getRL s k).requests_per_minute) ∧
    ((getRL s k).requests_per_hour ≤ 1000 →
      windowCount (recordedOf s k evs) t 3600 ≤ (getRL s k).requests_per_hour) ∧
    ((getRL s k).requests_per_day ≤ 1000 →
      windowCount (recordedOf s k evs) t 86400 ≤ (getRL s k).requests_per_day) := by
  refine ⟨fun hK => ?_, fun hK => ?_, fun hK => ?_⟩
  · refine windowBound k 60 (getRL s k).requests_per_minute hK s hhist ?_ evs hsort t
    intro s' p u hk hrl hrec
    have h := (checkRateLimits_true s' (strLower p) (getRL s' (strLower p)) u
      (acqRecorded_check s' p u hrec)).1
    rwa [hk, getRL_congr s s' hrl] at h
  · refine windowBound k 3600 (getRL s k).requests_per_hour hK s hhist ?_ evs hsort t
    intro s' p u hk hrl hrec
    have h := (checkRateLimits_true s' (strLower p) (getRL s' (strLower p)) u
      (acqRecorded_check s' p u hrec)).2.1
    rwa [hk, getRL_congr s s' hrl] at h
  · refine windowBound k 86400 (getRL s k).requests_per_day hK s hhist ?_ evs hsort t
    intro s' p u hk hrl hrec
    have h := (checkRateLimits_true s' (strLower p) (getRL s' (strLower p)) u
      (acqRecorded_check s' p u hrec)).2.2
    rwa [hk, getRL_congr s s' hrl] at h

/-- Witness for C1 (amended) at a concrete input: a fresh limiter, key
`"twitter"` (ceilings 15/300/1000, all ≤ 1000), a two-call trace. -/
theorem c1_sliding_window_bound_witness :
    windowCount (recordedOf initRL "twitter" [.acq "twitter" 0, .acq "twitter" 1]) 30 60 ≤
      (getRL initRL "twitter").requests_per_minute ∧
    windowCount (recordedOf initRL "twitter" [.acq "twitter" 0, .acq "twitter" 1]) 30 3600 ≤
      (getRL initRL "twitter").requests_per_hour ∧
    windowCount (recordedOf initRL "twitter" [.acq "twitter" 0, .acq "twitter" 1]) 30 86400 ≤
      (getRL initRL "twitter").requests_per_day := by
  have h := c1_sliding_window_bound initRL "twitter" [.acq "twitter" 0, .acq "twitter" 1] 30
    rfl (by simp [evTime])
  exact ⟨h.1 (by with_unfolding_all decide), h.2.1 (by with_unfolding_all decide),
    h.2.2 (by with_unfolding_all decide)⟩

end Scraper

namespace Scraper

/-- Converse direction of `checkRateLimits_true`: strict headroom on all
four counters makes the check pass. -/
theorem checkRateLimits_of_lt (s : RLState) (p : String) (rl : RateLimit) (now : ℚ)
    (h1 : (s.request_history p).countP (fun r => decide (now - 60 < r)) < rl.requests_per_minute)
    (h2 : (s.request_history p).countP (fun r => decide (now - 3600 < r)) < rl.requests_per_hour)
    (h3 : (s.request_history p).countP (fun r => decide (now - 86400 < r)) < rl.requests_per_day)
    (h4 : s.burst_count p < rl.burst_limit) :
    checkRateLimits s p rl now = true := by
  simp only [checkRateLimits]
  rw [if_neg (not_le.mpr h1), if_neg (not_le.mpr h2), if_neg (not_le.mpr h3),
    if_neg (not_le.mpr h4)]

/-- The configuration of the day-window counterexample: a per-day ceiling
of 1001, one more than the history capacity, with the other ceilings
roomy (2000) so that only the day ceiling is ever close. -/
def c1Limit : RateLimit := ⟨2000, 2000, 1001, 2000, 1, 1/10⟩

/-- A fresh limiter with `c1Limit` installed for key `"bulk"`. -/
def c1State : RLState := setRateLimit initRL "bulk" c1Limit

/-- Second `j` as a rational timestamp. -/
def qsec (j : ℕ) : ℚ := j

/-- The first `n` integer-second timestamps. -/
def c1Times (n : ℕ) : List ℚ := (List.range n).map qsec

/-- `n` acquires on `"bulk"`, one per second. -/
def c1Trace (n : ℕ) : List REvent := (c1Times n).map (fun x => REvent.acq "bulk" x)

/-- One more second of trace. -/
theorem c1Trace_succ (n : ℕ) :
    c1Trace (n + 1) = c1Trace n ++ [REvent.acq "bulk" (qsec n)] := by
  unfold c1Trace c1Times
  rw [List.range_succ, List.map_append, List.map_append]
  rfl

/-- Any `acquire` on `"bulk"` is admitted and recorded while the history
holds at most 1000 entries and the burst counter at most 1001: every
count the check computes is bounded by the history length. -/
theorem c1_admit (S : RLState) (now : ℚ)
    (hen : S.enabled = true)
    (hrl : S.rate_limits = c1State.rate_limits)
    (hb : S.backoff_multiplier "bulk" = 1)
    (hhl : (S.request_history "bulk").length ≤ 1000)
    (hbc : S.burst_count "bulk" ≤ 1001) :
    acqRecorded S "bulk" now = true ∧
    acquireState S "bulk" now = recordRequest S "bulk" now := by
  have hlow : strLower "bulk" = "bulk" := rfl
  have hg : getRL S "bulk" = c1Limit := by
    rw [getRL_congr c1State S hrl]
    rfl
  have hcount : ∀ c : ℚ,
      (S.request_history "bulk").countP (fun r => decide (c < r)) ≤ 1000 :=
    fun c => le_trans (List.countP_le_length _) hhl
  have hchk : checkRateLimits S "bulk" (getRL S "bulk") now = true := by
    rw [hg]
    exact checkRateLimits_of_lt S "bulk" c1Limit now
      (lt_of_le_of_lt (hcount _) (by norm_num [c1Limit]))
      (lt_of_le_of_lt (hcount _) (by norm_num [c1Limit]))
      (lt_of_le_of_lt (hcount _) (by norm_num [c1Limit]))
      (lt_of_le_of_lt hbc (by norm_num [c1Limit]))
  have hib : isInBackoff S "bulk" now = .ok false := by
    unfold isInBackoff
    rw [hb]
    exact if_pos le_rfl
  constructor
  · simp [acqRecorded, acquire, hen, hlow, hib, hchk]
  · simp [acquireState, acquire, hen, hlow, hib, hchk]

/-- State and recording along the counterexample trace: every one of the
first 1002 calls is admitted; the burst counter equals the number of
calls and the history keeps the newest 1000 timestamps. -/
theorem c1_run : ∀ n : ℕ, n ≤ 1002 →
    recordedOf c1State "bulk" (c1Trace n) = c1Times n ∧
    (run c1State (c1Trace n)).enabled = true ∧
    (run c1State (c1Trace n)).rate_limits = c1State.rate_limits ∧
    (run c1State (c1Trace n)).backoff_multiplier "bulk" = 1 ∧
    (run c1State (c1Trace n)).burst_count "bulk" = n ∧
    (run c1State (c1Trace n)).request_history "bulk" = ((c1Times n).reverse.take 1000) := by
  intro n
  induction n with
  | zero => intro _; exact ⟨rfl, rfl, rfl, rfl, rfl, rfl⟩
  | succ n ih =>
      intro hn1
      obtain ⟨ihrec, ihen, ihrl, ihb, ihbc, ihh⟩ := ih (by omega)
      set S := run c1State (c1Trace n) with hS
      have hhl : (S.request_history "bulk").length ≤ 1000 := by
        rw [ihh]; exact List.length_take_le ..
      obtain ⟨hrec, hstate⟩ := c1_admit S (qsec n) ihen ihrl ihb hhl (by omega)
      have hrun1 : run c1State (c1Trace (n + 1)) = recordRequest S "bulk" (qsec n) := by
        rw [c1Trace_succ, run_append, ← hS]
        show stepState S (REvent.acq "bulk" (qsec n)) = _
        exact hstate
      have hlow : strLower "bulk" = "bulk" := rfl
      have htimes : c1Times (n + 1) = c1Times n ++ [qsec n] := by
        unfold c1Times
        rw [List.range_succ, List.map_append]
        rfl
      refine ⟨?_, ?_, ?_, ?_, ?_, ?_⟩
      · rw [c1Trace_succ, recordedOf_append, ihrec, ← hS, recordedOf_cons]
        rw [show recAt S "bulk" (REvent.acq "bulk" (qsec n)) = [qsec n] from
          if_pos ⟨hlow, hrec⟩]
        rw [htimes]
        rfl
      · rw [hrun1]; exact ihen
      · rw [hrun1]; exact ihrl
      · rw [hrun1]
        exact ihb
      · rw [hrun1]
        show (updF S.burst_count "bulk" (S.burst_count "bulk" + 1)) "bulk" = n + 1
        rw [show (updF S.burst_count "bulk" (S.burst_count "bulk" + 1)) "bulk"
          = S.burst_count "bulk" + 1 from if_pos rfl, ihbc]
      · rw [hrun1]
        show (updF S.request_history "bulk"
          ((qsec n :: S.request_history "bulk").take 1000)) "bulk" = _
        rw [show (updF S.request_history "bulk"
            ((qsec n :: S.request_history "bulk").take 1000)) "bulk"
          = ((qsec n :: S.request_history "bulk").take 1000) from if_pos rfl, ihh]
        rw [htimes, List.reverse_append]
        rw [show ([qsec n].reverse ++ (c1Times n).reverse)
          = [qsec n] ++ (c1Times n).reverse from rfl]
        rw [← take_append_take]
        rfl

end Scraper

namespace Scraper

/-- The clock readings of the counterexample trace are its timestamps. -/
theorem c1Trace_times (n : ℕ) : (c1Trace n).filterMap evTime = c1Times n := by
  unfold c1Trace
  rw [List.filterMap_map]
  exact List.filterMap_some ..

/-- **C1 counterexample**: the day-window bound of the claim fails.
Concrete input: key `"bulk"` configured (via `set_rate_limit`, as in the
spec's own custom-configuration scenario) with `requests_per_day = 1001`
and roomy minute/hour/burst ceilings, and 1002 acquires one second apart
from a fresh state.  Every call is admitted — by the time of the 1002nd
call the `deque(maxlen=1000)` history has forgotten the oldest calls, so
the day count the check sees is only 1000 < 1001 — yet the trailing
24-hour window ending at the last call contains all 1002 recorded
requests, exceeding `requests_per_day`. -/
theorem c1_day_window_counterexample :
    (getRL c1State "bulk").requests_per_day = 1001 ∧
    c1State.request_history "bulk" = [] ∧
    ((c1Trace 1002).filterMap evTime).Pairwise (· ≤ ·) ∧
    1001 < windowCount (recordedOf c1State "bulk" (c1Trace 1002)) (qsec 1001) 86400 := by
  refine ⟨rfl, rfl, ?_, ?_⟩
  · rw [c1Trace_times]
    unfold c1Times
    exact (List.pairwise_lt_range 1002).map qsec
      (fun a b hab => by unfold qsec; exact_mod_cast le_of_lt hab)
  · rw [(c1_run 1002 le_rfl).1]
    have hall : ∀ a ∈ c1Times 1002,
        (decide (qsec 1001 - 86400 < a) && decide (a ≤ qsec 1001)) = true := by
      intro a ha
      obtain ⟨j, hj, rfl⟩ := List.mem_map.mp ha
      have hj' : j ≤ 1001 := by
        have := List.mem_range.mp hj
        omega
      have h1 : (j : ℚ) ≤ 1001 := by exact_mod_cast hj'
      have h2 : (0 : ℚ) ≤ (j : ℚ) := Nat.cast_nonneg j
      simp only [Bool.and_eq_true, decide_eq_true_eq]
      unfold qsec
      constructor
      · push_cast
        linarith
      · push_cast
        linarith
    unfold windowCount
    rw [List.countP_eq_length.mpr hall]
    unfold c1Times
    rw [List.length_map, List.length_range]
    norm_num

end Scraper
